import Mathlib

/-!
Verification of the timesheet reconciliation pipeline (extraction, validation,
ground-truth accuracy, approval ledger) against its specification.

The Python sources are shallowly embedded:
* `run_validation.py`  → `run_document_validation`, `run_line_validation`,
  `validateDocument` (the per-document body of `main`), `overall_status`;
* `crew.py`            → namespace `crew` (`save_extracted_lines`, the
  LLM-delegating `crew_run_validation` / `crew_run_reconciliation`);
* `run_extraction_cortex.py` → namespace `run_extraction_cortex`;
* `app.py` (Streamlit pages 3 and 5) → namespace `app` (`merge_submit`,
  `merge_approve`, `approve_all`, `save_ground_truth`).

Numeric values are modelled as rationals (the Python code only ever compares,
adds and divides decimal hour/confidence values; no rounding behaviour is at
stake in any property proved here).  Fallible Python code (expressions that can
raise) is modelled with `Except Unit`.
-/

set_option autoImplicit false

/-- Result status of a validation check, as the strings `"PASS"`, `"FAIL"`,
`"WARN"` used throughout `run_validation.py`. -/
inductive Status where
  | PASS
  | FAIL
  | WARN
deriving DecidableEq, Repr

/-- A dynamically typed Python value as it can sit in one field of a line
record (`dict`) flowing through validation: a number (int/float, modelled as
`ℚ`), a string, or `None`.  A key that is absent from the dict is also
modelled as `PyVal.none`: every access in the embedded code goes through
`dict.get` followed by a truthiness test (`if v:` / `v or 0`), under which an
absent key, `None`, `''` and `0` behave identically, so the collapse is
observationally faithful for all code paths modelled here. -/
inductive PyVal where
  | none
  | num (q : ℚ)
  | str (s : String)
deriving DecidableEq, Repr

/-- Python truthiness of a `PyVal`: `None` is falsy, a number is truthy iff
nonzero, a string is truthy iff nonempty. -/
def PyVal.truthy : PyVal → Bool
  | PyVal.none => false
  | PyVal.num q => q != 0
  | PyVal.str s => s != ""

/-- Numeric value of a list of decimal digit characters (most significant
first), as accumulated left to right. -/
def digitsToNat (cs : List Char) : ℕ :=
  cs.foldl (fun n c => 10 * n + (c.toNat - 48)) 0

/-- Drop leading whitespace characters. -/
def trimLeftChars : List Char → List Char
  | [] => []
  | c :: cs => if c.isWhitespace then trimLeftChars cs else c :: cs

/-- Drop leading and trailing whitespace characters, as Python ``str.strip``
does on the ASCII inputs modelled here. -/
def trimChars (cs : List Char) : List Char :=
  (trimLeftChars (trimLeftChars cs).reverse).reverse

/-- Split a character list on the separator `-`, keeping empty groups, as
``"...".split("-")`` would. -/
def splitDash : List Char → List (List Char)
  | [] => [[]]
  | c :: cs =>
      let r := splitDash cs
      if c == '-' then [] :: r
      else
        match r with
        | [] => [[c]]
        | g :: gs => (c :: g) :: gs

/-- Parse the digits-with-optional-fraction tail of a Python ``float`` literal:
`digits`, `digits.digits`, `digits.` or `.digits`. -/
def parseUnsigned? (cs : List Char) : Option ℚ :=
  let intPart := cs.takeWhile Char.isDigit
  let rest := cs.dropWhile Char.isDigit
  match rest with
  | [] => if intPart.isEmpty then Option.none else some (digitsToNat intPart)
  | '.' :: frac =>
      if frac.all Char.isDigit && !(intPart.isEmpty && frac.isEmpty) then
        some ((digitsToNat intPart : ℚ) + (digitsToNat frac : ℚ) / 10 ^ frac.length)
      else Option.none
  | _ => Option.none

/-- Model of Python ``float(s)`` on a string: strip surrounding whitespace,
optional sign, then a decimal literal.  Returns `Option.none` where the Python
call raises `ValueError`.  (Scientific notation, `inf`/`nan` and digit
underscores are accepted by Python but not modelled; no claim depends on
them.) -/
def parseFloat? (s : String) : Option ℚ :=
  match trimChars s.toList with
  | '-' :: rest => (parseUnsigned? rest).map Neg.neg
  | '+' :: rest => parseUnsigned? rest
  | cs => parseUnsigned? cs

/-- Model of Python ``float(v)`` on a field value: numbers pass through,
strings are parsed, `None` raises `TypeError` (`Option.none`). -/
def pyFloat? : PyVal → Option ℚ
  | PyVal.none => Option.none
  | PyVal.num q => some q
  | PyVal.str s => parseFloat? s

/-- Whether `y` is a Gregorian leap year, as `calendar`/`datetime` decide it. -/
def isLeap (y : ℕ) : Bool :=
  y % 4 == 0 && (y % 100 != 0 || y % 400 == 0)

/-- Number of days of month `m` in year `y` (months counted 1–12). -/
def daysInMonth (y m : ℕ) : ℕ :=
  if m == 2 then (if isLeap y then 29 else 28)
  else if m == 4 || m == 6 || m == 9 || m == 11 then 30
  else 31

/-- Model of ``datetime.strptime(s, "%Y-%m-%d")`` succeeding: `%Y` matches
exactly four digits (year ≥ 1), `%m` one or two digits in 1–12, `%d` one or
two digits in a day valid for that month and year, with nothing left over. -/
def validYMD (s : String) : Bool :=
  match splitDash s.toList with
  | [ys, ms, ds] =>
      let y := digitsToNat ys
      let m := digitsToNat ms
      let d := digitsToNat ds
      ys.all Char.isDigit && ys.length == 4 && 1 ≤ y &&
      ms.all Char.isDigit && (ms.length == 1 || ms.length == 2) && 1 ≤ m && m ≤ 12 &&
      ds.all Char.isDigit && (ds.length == 1 || ds.length == 2) && 1 ≤ d && d ≤ daysInMonth y m
  | _ => false

/-- The quote-stripping cleanup applied to a date string before parsing:
``str(work_date).replace('"', '').strip()``. -/
def removeQuotes (s : String) : String :=
  String.mk (s.toList.filter (fun c => c != '"'))

/-- One extracted line record as consumed by the validation engine
(`run_validation.py`): the dict keys that the engine reads.  The display-only
key `raw_text_snippet` is carried for the persistence model in `crew.py`. -/
structure Line where
  worker : PyVal := PyVal.none
  work_date : PyVal := PyVal.none
  project : PyVal := PyVal.none
  hours : PyVal := PyVal.none
  extraction_confidence : PyVal := PyVal.none
  raw_text_snippet : PyVal := PyVal.none
deriving DecidableEq, Repr

/-- One validation check result.  The human-readable `details` and
`computed_value` display strings of the Python dict are not modelled; the
record keeps the rule name, the status and the optional line reference, which
is everything the specified behaviour is about. -/
structure Check where
  rule_name : String
  status : Status
  line_id : Option String := Option.none
deriving DecidableEq, Repr

/-- The `VALID_DATE_FORMAT` predicate of `run_line_validation`
(run_validation.py:82–91): the field must be truthy and, after removing `"`
characters and stripping whitespace, parse with `strptime("%Y-%m-%d")`.  For a
numeric field the code formats it with `str(...)`, whose result (`"8.0"`,
`"2024"`, …) never contains the two dash-separated groups `%Y-%m-%d` requires,
so the parse always fails. -/
def dateValidB : PyVal → Bool
  | PyVal.str s => s != "" && validYMD (String.mk (trimChars (removeQuotes s).toList))
  | _ => false

/-- Line 93–98 of run_validation.py: date check status. -/
def dateStatus (v : PyVal) : Status :=
  if dateValidB v then Status.PASS else Status.FAIL

/-- Lines 101–108 of run_validation.py: the `try` block computing
`(hours_value, hours_valid)`.  `hours` equal to `None` is mapped to `0`
before the range test; a string is passed through `float(...)`, and when that
raises, both variables keep their pre-`try` values `(0, False)`. -/
def hoursTry (v : PyVal) : ℚ × Bool :=
  match v with
  | PyVal.none => (0, decide ((0:ℚ) ≤ 0 ∧ (0:ℚ) ≤ 24))
  | PyVal.num q => (q, decide (0 ≤ q ∧ q ≤ 24))
  | PyVal.str s =>
      match parseFloat? s with
      | some q => (q, decide (0 ≤ q ∧ q ≤ 24))
      | Option.none => (0, false)

/-- Line 110 of run_validation.py:
`"PASS" if hours_valid else ("WARN" if hours_value > 24 else "FAIL")`. -/
def hoursStatus (v : PyVal) : Status :=
  let p := hoursTry v
  if p.2 then Status.PASS else if 24 < p.1 then Status.WARN else Status.FAIL

/-- Lines 120–124 of run_validation.py: `REQUIRED_FIELDS_PRESENT` passes iff
`worker`, `work_date` and `hours` are all truthy. -/
def requiredStatus (l : Line) : Status :=
  if l.worker.truthy && l.work_date.truthy && l.hours.truthy
  then Status.PASS else Status.FAIL

/-- `run_line_validation(conn, doc_id, line, line_id)` of run_validation.py:
the three line-level checks, in order of appending.  The connection argument
is received but never consulted, which the polymorphic `Conn` parameter makes
manifest. -/
def run_line_validation {Conn : Type} (conn : Conn) (doc_id : String)
    (line : Line) (line_id : String) : List Check :=
  [ { rule_name := "VALID_DATE_FORMAT", status := dateStatus line.work_date,
      line_id := some line_id },
    { rule_name := "HOURS_IN_RANGE", status := hoursStatus line.hours,
      line_id := some line_id },
    { rule_name := "REQUIRED_FIELDS_PRESENT", status := requiredStatus line,
      line_id := some line_id } ]

/-- Model of ``float(line.get(k, 0) or 0)``: a falsy field (`None`, absent,
`''`, `0`) becomes `0`; a truthy one goes through `float(...)`, which raises
(`Except.error`) on a non-numeric string. -/
def pyFloatOr0 (v : PyVal) : Except Unit ℚ :=
  if v.truthy then
    match pyFloat? v with
    | some q => Except.ok q
    | Option.none => Except.error ()
  else Except.ok 0

/-- Line 34 of run_validation.py: the number of distinct truthy `worker`
values (`len(set(...))`). -/
def workersCount (lines : List Line) : ℕ :=
  ((lines.filterMap fun l =>
      if l.worker.truthy then some l.worker else Option.none).dedup).length

/-- Line 43 of run_validation.py: the number of lines with a truthy
`work_date`. -/
def datesCount (lines : List Line) : ℕ :=
  (lines.filter fun l => l.work_date.truthy).length

/-- Line 52 of run_validation.py:
`sum(float(line.get('hours', 0) or 0) for line in lines)` — raises as soon as
one line holds a truthy non-numeric `hours`. -/
def totalHours (lines : List Line) : Except Unit ℚ := do
  let hs ← lines.mapM fun l => pyFloatOr0 l.hours
  pure hs.sum

/-- Line 53 of run_validation.py: status of the `TOTAL_HOURS_REASONABLE`
check as a function of the computed total. -/
def thrStatus (t : ℚ) : Status :=
  if 0 < t ∧ t ≤ 60 then Status.PASS
  else if 60 < t then Status.WARN
  else Status.FAIL

/-- The `TOTAL_HOURS_REASONABLE` check appended at lines 54–59. -/
def thrCheck (t : ℚ) : Check :=
  { rule_name := "TOTAL_HOURS_REASONABLE", status := thrStatus t,
    line_id := Option.none }

/-- Lines 62–63 of run_validation.py: mean extraction confidence, `0` for an
empty document; each conversion `float(... or 0)` can raise. -/
def avgConfidence (lines : List Line) : Except Unit ℚ := do
  let cs ← lines.mapM fun l => pyFloatOr0 l.extraction_confidence
  pure (if cs.length = 0 then 0 else cs.sum / (cs.length : ℚ))

/-- Line 66 of run_validation.py: confidence check status. -/
def confStatus (avg : ℚ) : Status :=
  if 7/10 ≤ avg then Status.PASS else Status.WARN

/-- The `EXTRACTION_CONFIDENCE` check appended at lines 64–69. -/
def confCheck (avg : ℚ) : Check :=
  { rule_name := "EXTRACTION_CONFIDENCE", status := confStatus avg,
    line_id := Option.none }

/-- `run_document_validation(conn, doc_id, lines)` of run_validation.py:
the four document-level checks in order of appending.  The hours total and
the confidence average each evaluate ``float`` on line fields and so can
raise out of the function, which the `Except` result records.  The connection
argument is received but never consulted. -/
def run_document_validation {Conn : Type} (conn : Conn) (doc_id : String)
    (lines : List Line) : Except Unit (List Check) :=
  let c1 : Check :=
    { rule_name := "WORKER_IDENTIFIABLE",
      status := (if 0 < workersCount lines then Status.PASS else Status.FAIL),
      line_id := Option.none }
  let c2 : Check :=
    { rule_name := "DATES_PRESENT",
      status := (if 0 < datesCount lines then Status.PASS else Status.FAIL),
      line_id := Option.none }
  match totalHours lines with
  | Except.error e => Except.error e
  | Except.ok t =>
      match avgConfidence lines with
      | Except.error e => Except.error e
      | Except.ok avg => Except.ok [c1, c2, thrCheck t, confCheck avg]

/-- A row of `EXTRACTED_LINES` as fetched in `main` (run_validation.py:177–194):
the `line_id` plus the line fields handed to the validators. -/
structure Row where
  line_id : String
  worker : PyVal := PyVal.none
  work_date : PyVal := PyVal.none
  project : PyVal := PyVal.none
  hours : PyVal := PyVal.none
  extraction_confidence : PyVal := PyVal.none
deriving DecidableEq, Repr

/-- The line dict built from a fetched row. -/
def Row.toLine (r : Row) : Line :=
  { worker := r.worker, work_date := r.work_date, project := r.project,
    hours := r.hours, extraction_confidence := r.extraction_confidence }

/-- The line-level loop body of `main` (run_validation.py:203–205) over a
given list of rows: the concatenation of each row's line checks. -/
def lineChecks {Conn : Type} (conn : Conn) (doc_id : String) :
    List Row → List Check
  | [] => []
  | r :: rs =>
      run_line_validation conn doc_id r.toLine r.line_id ++ lineChecks conn doc_id rs

/-- The per-document body of `main` (run_validation.py:196–205): document
checks followed by line checks for `lines[:5]` — only the first five fetched
rows are passed to `run_line_validation`. -/
def validateDocument {Conn : Type} (conn : Conn) (doc_id : String)
    (rows : List Row) : Except Unit (List Check) :=
  match run_document_validation conn doc_id (rows.map Row.toLine) with
  | Except.error e => Except.error e
  | Except.ok doc => Except.ok (doc ++ lineChecks conn doc_id (rows.take 5))

/-- Lines 211–242 of run_validation.py applied to one check set: `total_fail`
counts `"FAIL"` statuses and `overall = "PASS" if total_fail == 0 else
"FAIL"` — `WARN` plays no part. -/
def overall_status (checks : List Check) : Status :=
  if (checks.filter fun c => c.status == Status.FAIL).length = 0
  then Status.PASS else Status.FAIL

/-- The amended `HOURS_IN_RANGE` policy, written out case by case from the
corrected claim so that the engine can be proved to refine it: missing hours
is treated as `0` and passes; a numeric value fails when negative, passes in
`[0, 24]` and warns above `24`; a string is parsed like `float(...)` and
fails when unparseable. -/
def amendedHoursStatus : PyVal → Status
  | PyVal.none => Status.PASS
  | PyVal.num q => if q < 0 then Status.FAIL else if q ≤ 24 then Status.PASS else Status.WARN
  | PyVal.str s =>
      match parseFloat? s with
      | some q => if q < 0 then Status.FAIL else if q ≤ 24 then Status.PASS else Status.WARN
      | Option.none => Status.FAIL

/-- A row of the `EXTRACTED_LINES` table as inserted by the two extraction
save paths (crew.py:94–108, run_extraction_cortex.py:112–126). -/
structure ExtRow where
  line_id : String
  doc_id : String
  worker : PyVal := PyVal.none
  work_date : PyVal := PyVal.none
  project : PyVal := PyVal.none
  hours : PyVal := PyVal.none
  extraction_confidence : PyVal := PyVal.none
  raw_text_snippet : PyVal := PyVal.none
deriving DecidableEq, Repr

/-- A row of the `VALIDATION_RESULTS` table (crew.py:126–138). -/
structure ValRow where
  validation_id : String
  doc_id : String
  check : Check
deriving DecidableEq, Repr

/-- A row of the `LEDGER_APPROVALS` table (app.py page 5).  The wall-clock
`reviewed_ts` column is not modelled; no claim concerns it. -/
structure ApprovalRow where
  line_id : String
  doc_id : String
  decision : String
  corrected_hours : Option ℚ := Option.none
  corrected_date : Option String := Option.none
  corrected_project : Option String := Option.none
  reason : Option String := Option.none
deriving DecidableEq, Repr

/-- The persisted state the extraction claims quantify over: the
`EXTRACTED_LINES` table together with its dependent `VALIDATION_RESULTS` and
`LEDGER_APPROVALS` tables. -/
structure DB where
  extracted : List ExtRow
  validations : List ValRow
  approvals : List ApprovalRow
deriving DecidableEq, Repr

/-- The `EXTRACTED_LINES` insert built for the `i`-th line of an extraction
result: `line_id` is `f"{doc_id}_L{i+1}"` in both save paths. -/
def mkExtRow (doc_id : String) (i : ℕ) (l : Line) : ExtRow :=
  { line_id := doc_id ++ "_L" ++ toString (i + 1), doc_id := doc_id,
    worker := l.worker, work_date := l.work_date, project := l.project,
    hours := l.hours, extraction_confidence := l.extraction_confidence,
    raw_text_snippet := l.raw_text_snippet }

/-- All inserts of one save call, in `enumerate` order. -/
def mkExtRows (doc_id : String) (lines : List Line) : List ExtRow :=
  lines.enum.map fun p => mkExtRow doc_id p.1 p.2

namespace crew

/-- `TimesheetReconciliationCrew.save_extracted_lines` (crew.py:82–111):
cascade-deletes the document's `LEDGER_APPROVALS`, `VALIDATION_RESULTS` and
`EXTRACTED_LINES` rows, then inserts the new lines. -/
def save_extracted_lines (db : DB) (doc_id : String) (lines : List Line) : DB :=
  { extracted := db.extracted.filter (fun r => r.doc_id != doc_id) ++ mkExtRows doc_id lines,
    validations := db.validations.filter (fun r => r.doc_id != doc_id),
    approvals := db.approvals.filter (fun r => r.doc_id != doc_id) }

/-- The external generative model behind `crew.kickoff()`: what it answers to
a given task prompt.  This is ambient state of the process, not an explicit
input of the pipeline methods that consult it. -/
structure LLM where
  complete : String → String

/-- The prompt built by `create_validation_task` (validation_agent.py:97–131)
from its explicit inputs; the fixed instruction prose is abridged, which no
claim depends on — only that the prompt is a function of the two inputs. -/
def validation_task_description (extraction_result doc_id : String) : String :=
  "Validate the extracted data for document " ++ doc_id ++
  ". Extracted Data: --- " ++ extraction_result ++ " --- " ++
  "Apply document-level and line-level checks and determine the overall_status."

/-- `TimesheetReconciliationCrew.run_validation` (crew.py:258–281): builds the
validation task and returns whatever the external model answers to it
(`crew.kickoff()` → result). -/
def run_validation (llm : LLM) (extraction_result doc_id : String) : String :=
  llm.complete (validation_task_description extraction_result doc_id)

/-- The prompt built by `create_reconciliation_task`
(validation_agent.py:146–206) from its explicit inputs (prose abridged). -/
def reconciliation_task_description (validated_timesheets subsub_invoice my_invoice : String)
    (hourly_rate tolerance_pct : ℚ) : String :=
  "Reconcile approved timesheet hours against invoices. Validated Timesheets: --- " ++
  validated_timesheets ++ " --- Sub-Sub Contractor Invoice: --- " ++ subsub_invoice ++
  " --- My Invoice (to Prime): --- " ++ my_invoice ++ " --- Hourly Rate: " ++
  toString hourly_rate ++ " Variance Tolerance: " ++ toString tolerance_pct

/-- `TimesheetReconciliationCrew.run_reconciliation` (crew.py:283–321): builds
the reconciliation task and returns the external model's answer. -/
def run_reconciliation (llm : LLM) (validated_timesheets subsub_invoice my_invoice : String)
    (hourly_rate tolerance_pct : ℚ) : String :=
  llm.complete (reconciliation_task_description validated_timesheets subsub_invoice
    my_invoice hourly_rate tolerance_pct)

end crew

namespace run_extraction_cortex

/-- `save_extracted_lines` of run_extraction_cortex.py (lines 107–133): plain
`INSERT` of each extracted line — no prior `DELETE` of the document's rows and
no cascade on the dependent tables. -/
def save_extracted_lines (db : DB) (doc_id : String) (lines : List Line) : DB :=
  { db with extracted := db.extracted ++ mkExtRows doc_id lines }

end run_extraction_cortex

namespace app

/-- The effect of a Snowflake `MERGE INTO LEDGER_APPROVALS t USING (SELECT
lid) s ON t.line_id = s.line_id` statement: every matched row is updated by
`f`; if none matches, `new` is inserted. -/
def upsert (aps : List ApprovalRow) (lid : String)
    (f : ApprovalRow → ApprovalRow) (new : ApprovalRow) : List ApprovalRow :=
  if aps.any fun r => r.line_id == lid then
    aps.map fun r => if r.line_id == lid then f r else r
  else aps ++ [new]

/-- The `WHEN MATCHED` update of the per-line Submit MERGE (app.py:643–645):
decision and the corrected/reason fields are overwritten in place. -/
def submitUpdate (d : String) (ch : Option ℚ) (cd cp rs : Option String)
    (r : ApprovalRow) : ApprovalRow :=
  { r with decision := d, corrected_hours := ch, corrected_date := cd, corrected_project := cp, reason := rs }

/-- The `WHEN NOT MATCHED` insert of the per-line Submit MERGE
(app.py:646–648). -/
def submitNew (lid doc d : String) (ch : Option ℚ) (cd cp rs : Option String) :
    ApprovalRow :=
  { line_id := lid, doc_id := doc, decision := d, corrected_hours := ch, corrected_date := cd, corrected_project := cp, reason := rs }

/-- Page 5 per-line Submit (app.py:639–658): upsert keyed on `line_id`,
writing decision and the corrected/reason fields both on update and on
insert. -/
def merge_submit (aps : List ApprovalRow) (lid doc d : String)
    (ch : Option ℚ) (cd cp rs : Option String) : List ApprovalRow :=
  upsert aps lid (submitUpdate d ch cd cp rs) (submitNew lid doc d ch cd cp rs)

/-- The `WHEN MATCHED` update of the Approve All MERGE (app.py:599): only the
decision is set. -/
def approveUpdate (r : ApprovalRow) : ApprovalRow :=
  { r with decision := "APPROVED" }

/-- The `WHEN NOT MATCHED` insert of the Approve All MERGE (app.py:600). -/
def approveNew (lid doc : String) : ApprovalRow :=
  { line_id := lid, doc_id := doc, decision := "APPROVED" }

/-- Page 5 Approve All, one line (app.py:596–601): upsert keyed on `line_id`
that sets only `decision = 'APPROVED'` on update and inserts a bare
`APPROVED` row otherwise. -/
def merge_approve (aps : List ApprovalRow) (lid doc : String) : List ApprovalRow :=
  upsert aps lid approveUpdate (approveNew lid doc)

/-- Page 5 "Approve All Lines" (app.py:594–603): the per-line MERGE applied to
every extracted line of the selected document in order. -/
def approve_all (aps : List ApprovalRow) (lids : List String) (doc : String) :
    List ApprovalRow :=
  lids.foldl (fun a l => merge_approve a l doc) aps

/-- Page 5 "Clear All Approvals" (app.py:605–608). -/
def clear_all (aps : List ApprovalRow) (doc : String) : List ApprovalRow :=
  aps.filter fun r => r.doc_id != doc

/-- The ledger rows stored for one `line_id`. -/
def rowsFor (aps : List ApprovalRow) (lid : String) : List ApprovalRow :=
  aps.filter fun r => r.line_id == lid

/-- The at-most-one-decision-per-line invariant of the approval ledger. -/
def UniqueByLine (aps : List ApprovalRow) : Prop :=
  ∀ lid, (rowsFor aps lid).length ≤ 1

/-- A row of the `GROUND_TRUTH_LINES` table (app.py:431–435). -/
structure GtRow where
  doc_id : String
  worker : String
  work_date : String
  project : String
  hours : ℚ
deriving DecidableEq, Repr

/-- One row of the editable weekly grid on page 3: the Project cell
(`Option.none` models an empty or NaN cell, which the save loop skips) and
the per-day hour cells, in day-column order; an empty hour cell reads as
`0`. -/
structure GridRow where
  project : Option String
  cells : List ℚ
deriving DecidableEq, Repr

/-- The `GROUND_TRUTH_LINES` inserts produced by one grid row
(app.py:423–436): skipped entirely for a falsy Project; otherwise one insert
per day column whose hours are strictly positive. -/
def gridRowInserts (doc_id worker : String) (week_dates : List String)
    (row : GridRow) : List GtRow :=
  match row.project with
  | Option.none => []
  | some p =>
      if p == "" then []
      else (week_dates.zip row.cells).filterMap fun dc =>
        if 0 < dc.2 then
          some { doc_id := doc_id, worker := worker, work_date := dc.1,
                 project := p, hours := dc.2 }
        else Option.none

/-- The inserts of the whole grid, in row order. -/
def gridInserts (doc_id worker : String) (week_dates : List String) :
    List GridRow → List GtRow
  | [] => []
  | r :: rs => gridRowInserts doc_id worker week_dates r ++
      gridInserts doc_id worker week_dates rs

/-- Page 3 "Save Ground Truth" (app.py:418–438): delete every
`GROUND_TRUTH_LINES` row of the document, then insert one row per positive
grid cell. -/
def save_ground_truth (db : List GtRow) (doc_id worker : String)
    (week_dates : List String) (grid : List GridRow) : List GtRow :=
  db.filter (fun r => r.doc_id != doc_id) ++ gridInserts doc_id worker week_dates grid

end app

/-- Modelled from the spec: the accuracy-percentage computation itself is not
under `src/` — it lives in the `EXTRACTION_ACCURACY` SQL view that page 4 of
app.py reads, and in the output the ground-truth agent's task prompt
(ground_truth_agent.py:108–121) asks the external model for.  Following the
spec's words: `(1 - |total_ext_hours - total_gt_hours| / total_gt_hours) *
100` when `total_gt_hours > 0`, `100` when both totals are zero, `0` when the
ground-truth total is zero and the extracted total is positive. -/
def hours_accuracy_pct (total_gt_hours total_ext_hours : ℚ) : ℚ :=
  if 0 < total_gt_hours then
    (1 - |total_ext_hours - total_gt_hours| / total_gt_hours) * 100
  else if total_ext_hours = 0 then 100 else 0

/-- A well-formed extracted row whose document-level confidence check comes
out `WARN` while every other check passes: used to exhibit the behaviour of
`overall_status` on a WARN-but-no-FAIL document. -/
def row1 : Row :=
  { line_id := "L1", worker := PyVal.str "Mike",
    work_date := PyVal.str "2024-01-06", project := PyVal.str "P1",
    hours := PyVal.num 8, extraction_confidence := PyVal.num (1/2) }

/-- A six-row document (more rows than the five-line cap of
run_validation.py:203). -/
def rows6 : List Row :=
  [ { line_id := "L1", worker := PyVal.str "Mike",
      work_date := PyVal.str "2024-01-06", project := PyVal.str "P1",
      hours := PyVal.num 8, extraction_confidence := PyVal.num 1 },
    { line_id := "L2", worker := PyVal.str "Mike",
      work_date := PyVal.str "2024-01-07", project := PyVal.str "P1",
      hours := PyVal.num 8, extraction_confidence := PyVal.num 1 },
    { line_id := "L3", worker := PyVal.str "Mike",
      work_date := PyVal.str "2024-01-08", project := PyVal.str "P1",
      hours := PyVal.num 8, extraction_confidence := PyVal.num 1 },
    { line_id := "L4", worker := PyVal.str "Mike",
      work_date := PyVal.str "2024-01-09", project := PyVal.str "P1",
      hours := PyVal.num 8, extraction_confidence := PyVal.num 1 },
    { line_id := "L5", worker := PyVal.str "Mike",
      work_date := PyVal.str "2024-01-10", project := PyVal.str "P1",
      hours := PyVal.num 8, extraction_confidence := PyVal.num 1 },
    { line_id := "L6", worker := PyVal.str "Mike",
      work_date := PyVal.str "2024-01-11", project := PyVal.str "P1",
      hours := PyVal.num 8, extraction_confidence := PyVal.num 1 } ]

/-- A line whose `hours` field holds a non-numeric string. -/
def badLine : Line :=
  { worker := PyVal.str "W", work_date := PyVal.str "2024-01-06",
    hours := PyVal.str "abc" }

/-- A concrete extracted line for the persistence counterexample. -/
def sampleLine : Line :=
  { worker := PyVal.str "Mike", work_date := PyVal.str "2024-01-06",
    project := PyVal.str "P1", hours := PyVal.num 8,
    extraction_confidence := PyVal.num (9/10) }

/-- The empty persisted state. -/
def db0 : DB := { extracted := [], validations := [], approvals := [] }

/-- A pre-existing ground-truth row for document `D1`. -/
def gtOld : app.GtRow :=
  { doc_id := "D1", worker := "W", work_date := "2024-01-05",
    project := "P1", hours := 5 }

/-- A grid row whose every hour cell is zero. -/
def gridZeroRow : app.GridRow := { project := some "P1", cells := [0, 0] }

/-- The first row of `rows6`. -/
def rows6a : Row :=
  { line_id := "L1", worker := PyVal.str "Mike",
    work_date := PyVal.str "2024-01-06", project := PyVal.str "P1",
    hours := PyVal.num 8, extraction_confidence := PyVal.num 1 }

/-! ## Helper lemmas -/

/-- The engine's `HOURS_IN_RANGE` status agrees with the amended case-by-case
policy on every field value. -/
theorem hoursStatus_eq_amended (v : PyVal) : hoursStatus v = amendedHoursStatus v := by
  have key : ∀ q : ℚ,
      (if (decide (0 ≤ q ∧ q ≤ 24)) = true then Status.PASS
       else if 24 < q then Status.WARN else Status.FAIL) =
      (if q < 0 then Status.FAIL else if q ≤ 24 then Status.PASS else Status.WARN) := by
    intro q
    rcases le_or_lt 0 q with h0 | h0
    · rcases le_or_lt q 24 with h24 | h24
      · simp [h0, h24, not_lt.2 h0]
      · simp [h0, h24, not_le.2 h24, not_lt.2 h0]
    · have h24 : ¬ 24 < q := by linarith
      simp [h0, h24, not_le.2 h0]
  cases v with
  | none => rfl
  | num q => simpa [hoursStatus, hoursTry, amendedHoursStatus] using key q
  | str s =>
      cases hp : parseFloat? s with
      | none => simp [hoursStatus, hoursTry, amendedHoursStatus, hp]
      | some q => simpa [hoursStatus, hoursTry, amendedHoursStatus, hp] using key q

/-! ## Claim C1 -/

/-- C1, counterexample.  The claim requires `HOURS_IN_RANGE` to FAIL when the
`hours` field is missing; on a line with no `hours` field the engine maps the
missing value to `0` (run_validation.py:105) and reports PASS. -/
theorem spec_C1_counterexample :
    (run_line_validation () "D1" ({ } : Line) "L1")[1]? =
      some { rule_name := "HOURS_IN_RANGE", status := Status.PASS,
             line_id := some "L1" } ∧
    Status.PASS ≠ Status.FAIL := ⟨rfl, by decide⟩

/-- C1, amended: for every line, the `HOURS_IN_RANGE` check (the second check
the line validator emits) is FAIL when `hours` is a non-numeric string or a
negative number, PASS when `hours` is missing (treated as `0`) or lies in
`[0, 24]`, and WARN when `hours` exceeds `24` — exactly the case-by-case
policy `amendedHoursStatus`. -/
theorem spec_C1_amended {Conn : Type} (conn : Conn) (doc_id : String)
    (line : Line) (line_id : String) :
    (run_line_validation conn doc_id line line_id)[1]? =
      some { rule_name := "HOURS_IN_RANGE",
             status := amendedHoursStatus line.hours,
             line_id := some line_id } := by
  simp [run_line_validation, hoursStatus_eq_amended]

/-! ## Claim C2 -/

/-- C2: whenever the hours of a line set sum without error to `t`, the third
document-level check is `TOTAL_HOURS_REASONABLE` computed at `t`, and its
status is FAIL at `t = 0`, PASS on `0 < t ≤ 60`, and WARN above `60`. -/
theorem spec_C2 {Conn : Type} (conn : Conn) (doc_id : String)
    (lines : List Line) (t : ℚ) (h : totalHours lines = Except.ok t) :
    (∀ checks, run_document_validation conn doc_id lines = Except.ok checks →
        checks[2]? = some (thrCheck t)) ∧
    (t = 0 → (thrCheck t).status = Status.FAIL) ∧
    (0 < t → t ≤ 60 → (thrCheck t).status = Status.PASS) ∧
    (60 < t → (thrCheck t).status = Status.WARN) := by
  refine ⟨?_, ?_, ?_, ?_⟩
  · intro checks hc
    unfold run_document_validation at hc
    rw [h] at hc
    cases havg : avgConfidence lines with
    | error e => rw [havg] at hc; cases hc
    | ok avg => rw [havg] at hc; cases hc; rfl
  · intro ht; subst ht; decide
  · intro h1 h2
    show thrStatus t = Status.PASS
    unfold thrStatus
    rw [if_pos ⟨h1, h2⟩]
  · intro h60
    show thrStatus t = Status.WARN
    unfold thrStatus
    rw [if_neg (by rintro ⟨-, h2⟩; linarith), if_pos h60]

/-- C2, witness: the empty line set sums to `0` and its
`TOTAL_HOURS_REASONABLE` status is FAIL. -/
theorem spec_C2_witness : (thrCheck (0 : ℚ)).status = Status.FAIL :=
  (spec_C2 () "D1" [] 0 rfl).2.1 rfl

/-! ## Claim C3 -/

/-- C3, exhibit of the divergence: on a line whose `hours` field is the
non-numeric string `"abc"`, the line validator degrades gracefully and
reports `HOURS_IN_RANGE` FAIL, but the document validator raises out of
`sum(float(line.get('hours', 0) or 0) ...)` (run_validation.py:52) instead of
returning a check list. -/
theorem spec_C3_code_exhibit :
    run_document_validation () "D1" [badLine] = Except.error () ∧
    run_line_validation () "D1" badLine "L1" =
      [ { rule_name := "VALID_DATE_FORMAT", status := Status.PASS,
          line_id := some "L1" },
        { rule_name := "HOURS_IN_RANGE", status := Status.FAIL,
          line_id := some "L1" },
        { rule_name := "REQUIRED_FIELDS_PRESENT", status := Status.PASS,
          line_id := some "L1" } ] := ⟨rfl, rfl⟩

/-! ## Claim C4 -/

/-- C4: the accuracy percentage follows the guarded formula — the quotient
form whenever the ground-truth total is positive, `100` when both totals are
zero, `0` when the ground-truth total is zero and the extracted total is
positive; no branch divides by a zero ground-truth total. -/
theorem spec_C4 (gt ext : ℚ) :
    (0 < gt → hours_accuracy_pct gt ext = (1 - |ext - gt| / gt) * 100) ∧
    hours_accuracy_pct 0 0 = 100 ∧
    (0 < ext → hours_accuracy_pct 0 ext = 0) := by
  refine ⟨?_, ?_, ?_⟩
  · intro hgt
    unfold hours_accuracy_pct
    rw [if_pos hgt]
  · decide
  · intro hext
    unfold hours_accuracy_pct
    rw [if_neg (lt_irrefl 0), if_neg (by positivity)]

/-- C4, witness: the spec's worked example with ground truth `40` and
extraction `38` takes the quotient branch. -/
theorem spec_C4_witness :
    hours_accuracy_pct 40 38 = (1 - |(38 : ℚ) - 40| / 40) * 100 :=
  (spec_C4 40 38).1 (by decide)

/-! ## Claim C5 -/

unseal Rat.add Rat.mul Rat.inv in
/-- C5, counterexample.  A fully well-formed single-line document whose only
blemish is low extraction confidence produces a check set with one WARN and
no FAIL, yet the pipeline's overall status (run_validation.py:242) is PASS,
not WARN. -/
theorem spec_C5_counterexample :
    ((validateDocument () "D1" [row1]).toOption.getD []).filter
        (fun c => c.status == Status.WARN) ≠ [] ∧
    ((validateDocument () "D1" [row1]).toOption.getD []).filter
        (fun c => c.status == Status.FAIL) = [] ∧
    (validateDocument () "D1" [row1]).toOption.isSome = true ∧
    overall_status ((validateDocument () "D1" [row1]).toOption.getD []) =
      Status.PASS ∧
    Status.PASS ≠ Status.WARN := by
  exact ⟨by decide, by decide, by decide, by decide, by decide⟩

/-- C5, amended: the executable pipeline's overall status is FAIL exactly
when some check is FAIL and PASS otherwise — WARN checks never influence it
(the three-way FAIL/WARN/PASS policy exists only in the LLM task
instructions of validation_agent.py, which no executable code implements). -/
theorem spec_C5_amended (checks : List Check) :
    ((∃ c ∈ checks, c.status = Status.FAIL) →
        overall_status checks = Status.FAIL) ∧
    ((∀ c ∈ checks, c.status ≠ Status.FAIL) →
        overall_status checks = Status.PASS) := by
  constructor
  · rintro ⟨c, hc, hs⟩
    unfold overall_status
    rw [if_neg]
    intro hlen
    have hnil := List.length_eq_zero.mp hlen
    have : c ∈ checks.filter (fun c => c.status == Status.FAIL) :=
      List.mem_filter.mpr ⟨hc, by simp [hs]⟩
    simp [hnil] at this
  · intro h
    unfold overall_status
    rw [if_pos]
    rw [List.length_eq_zero, List.filter_eq_nil_iff]
    intro c hc
    simpa using h c hc

/-- C5, witness for the amended claim: the empty check set has no FAIL check
and overall status PASS. -/
theorem spec_C5_witness : overall_status [] = Status.PASS :=
  (spec_C5_amended []).2 (by simp)

/-! ## Claim C6 -/

/-- Every row of the processed prefix contributes its three line checks. -/
theorem mem_lineChecks {Conn : Type} (conn : Conn) (doc_id : String)
    (rows : List Row) (r : Row) (hr : r ∈ rows) :
    ({ rule_name := "VALID_DATE_FORMAT", status := dateStatus r.work_date,
       line_id := some r.line_id } : Check) ∈ lineChecks conn doc_id rows ∧
    ({ rule_name := "HOURS_IN_RANGE", status := hoursStatus r.hours,
       line_id := some r.line_id } : Check) ∈ lineChecks conn doc_id rows ∧
    ({ rule_name := "REQUIRED_FIELDS_PRESENT", status := requiredStatus r.toLine,
       line_id := some r.line_id } : Check) ∈ lineChecks conn doc_id rows := by
  induction rows with
  | nil => cases hr
  | cons a t ih =>
      rcases List.mem_cons.mp hr with h | h
      · subst h
        refine ⟨?_, ?_, ?_⟩ <;>
          exact List.mem_append_left _ (by simp [run_line_validation, Row.toLine])
      · obtain ⟨h1, h2, h3⟩ := ih h
        exact ⟨List.mem_append_right _ h1, List.mem_append_right _ h2,
          List.mem_append_right _ h3⟩

/-- Every line-scoped check produced by the loop references one of the
processed rows. -/
theorem lineChecks_line_id {Conn : Type} (conn : Conn) (doc_id : String)
    (rows : List Row) (c : Check) (hc : c ∈ lineChecks conn doc_id rows) :
    ∃ r ∈ rows, c.line_id = some r.line_id := by
  induction rows with
  | nil => cases hc
  | cons a t ih =>
      rcases List.mem_append.mp hc with h | h
      · refine ⟨a, List.mem_cons_self a t, ?_⟩
        simp only [run_line_validation, List.mem_cons, List.mem_singleton,
          List.not_mem_nil, or_false] at h
        rcases h with h | h | h <;> subst h <;> rfl
      · obtain ⟨r, hr, hid⟩ := ih h
        exact ⟨r, List.mem_cons_of_mem a hr, hid⟩

/-- C6, counterexample.  On the six-row document `rows6` the validation run
succeeds, yet no produced check references line `L6`: the loop at
run_validation.py:203 silently processes only `lines[:5]`. -/
theorem spec_C6_counterexample :
    (validateDocument () "D1" rows6).toOption.isSome = true ∧
    rows6.map Row.line_id = ["L1", "L2", "L3", "L4", "L5", "L6"] ∧
    ((validateDocument () "D1" rows6).toOption.getD []).filter
        (fun c => c.line_id == some "L6") = [] := ⟨rfl, rfl, rfl⟩

/-- C6, amended: when a validation run succeeds, line-level checks are
produced for exactly the first `min(5, n)` rows — every row of `rows.take 5`
gets its three checks, and every line-scoped check in the output references a
row of `rows.take 5`; rows past the fifth are skipped. -/
theorem spec_C6_amended {Conn : Type} (conn : Conn) (doc_id : String)
    (rows : List Row) (checks : List Check)
    (h : validateDocument conn doc_id rows = Except.ok checks) :
    (∀ r ∈ rows.take 5,
        ({ rule_name := "VALID_DATE_FORMAT", status := dateStatus r.work_date,
           line_id := some r.line_id } : Check) ∈ checks ∧
        ({ rule_name := "HOURS_IN_RANGE", status := hoursStatus r.hours,
           line_id := some r.line_id } : Check) ∈ checks ∧
        ({ rule_name := "REQUIRED_FIELDS_PRESENT",
           status := requiredStatus r.toLine,
           line_id := some r.line_id } : Check) ∈ checks) ∧
    (∀ c ∈ checks, c.line_id = Option.none ∨
        ∃ r ∈ rows.take 5, c.line_id = some r.line_id) := by
  unfold validateDocument at h
  cases hdoc : run_document_validation conn doc_id (rows.map Row.toLine) with
  | error e => rw [hdoc] at h; cases h
  | ok doc =>
      rw [hdoc] at h
      cases h
      constructor
      · intro r hr
        obtain ⟨h1, h2, h3⟩ := mem_lineChecks conn doc_id (rows.take 5) r hr
        exact ⟨List.mem_append_right _ h1, List.mem_append_right _ h2,
          List.mem_append_right _ h3⟩
      · intro c hc
        rcases List.mem_append.mp hc with h | h
        · left
          unfold run_document_validation at hdoc
          cases ht : totalHours (rows.map Row.toLine) with
          | error e => rw [ht] at hdoc; cases hdoc
          | ok t =>
              rw [ht] at hdoc
              cases ha : avgConfidence (rows.map Row.toLine) with
              | error e => rw [ha] at hdoc; cases hdoc
              | ok avg =>
                  rw [ha] at hdoc
                  cases hdoc
                  simp only [List.mem_cons, List.mem_singleton,
                    List.not_mem_nil, or_false] at h
                  rcases h with h | h | h | h <;> subst h <;> rfl
        · exact Or.inr (lineChecks_line_id conn doc_id (rows.take 5) c h)

/-- C6, witness: on `rows6` the amended statement instantiates — the first
row's `HOURS_IN_RANGE` check is among the produced checks. -/
theorem spec_C6_witness :
    ({ rule_name := "HOURS_IN_RANGE", status := Status.PASS,
       line_id := some "L1" } : Check) ∈
      (validateDocument () "D1" rows6).toOption.getD [] := by
  have h := (spec_C6_amended () "D1" rows6
      ((validateDocument () "D1" rows6).toOption.getD []) rfl).1
  exact (h rows6a (by decide)).2.1

/-! ## Claim C7 -/

/-- Freshly inserted extraction rows all carry the saved document id, so the
delete-by-document filter removes all of them. -/
theorem filter_ne_mkExtRows (doc : String) (lines : List Line) :
    (mkExtRows doc lines).filter (fun r => r.doc_id != doc) = [] := by
  rw [List.filter_eq_nil_iff]
  intro r hr
  simp only [mkExtRows, List.mem_map, Prod.exists] at hr
  obtain ⟨a, b, hmem, rfl⟩ := hr
  simp [mkExtRow]

/-- Filtering twice by the same predicate filters once. -/
theorem filter_idem {α : Type} (p : α → Bool) (l : List α) :
    (l.filter p).filter p = l.filter p := by
  induction l with
  | nil => rfl
  | cons a t ih => by_cases h : p a = true <;> simp [List.filter_cons, h, ih]

unseal Rat.add Rat.mul Rat.inv in
/-- C7, counterexample.  The save path of run_extraction_cortex.py never
deletes: saving the same single-line extraction twice for document `D1`
leaves a different (doubled) `EXTRACTED_LINES` state than saving it once, so
a rerun through this path is not delete-and-replace. -/
theorem spec_C7_counterexample :
    run_extraction_cortex.save_extracted_lines
        (run_extraction_cortex.save_extracted_lines db0 "D1" [sampleLine])
        "D1" [sampleLine]
      ≠ run_extraction_cortex.save_extracted_lines db0 "D1" [sampleLine] := by
  decide

/-- C7, amended: `crew.py`'s save is delete-and-replace with cascade — it
removes the document's approval and validation rows, replaces its extracted
rows, and is idempotent (saving twice equals saving once) — while
`run_extraction_cortex.py`'s save only appends the new rows, accumulating
duplicates on rerun. -/
theorem spec_C7_amended (db : DB) (doc : String) (lines : List Line) :
    crew.save_extracted_lines (crew.save_extracted_lines db doc lines) doc lines
      = crew.save_extracted_lines db doc lines ∧
    (crew.save_extracted_lines db doc lines).extracted
      = db.extracted.filter (fun r => r.doc_id != doc) ++ mkExtRows doc lines ∧
    (crew.save_extracted_lines db doc lines).validations
      = db.validations.filter (fun r => r.doc_id != doc) ∧
    (crew.save_extracted_lines db doc lines).approvals
      = db.approvals.filter (fun r => r.doc_id != doc) ∧
    (run_extraction_cortex.save_extracted_lines db doc lines).extracted
      = db.extracted ++ mkExtRows doc lines := by
  refine ⟨?_, rfl, rfl, rfl, rfl⟩
  unfold crew.save_extracted_lines
  simp only [DB.mk.injEq]
  refine ⟨?_, filter_idem _ _, filter_idem _ _⟩
  rw [List.filter_append, filter_idem, filter_ne_mkExtRows, List.append_nil]

/-! ## Claim C8 -/

/-- `rowsFor` distributes over append. -/
theorem rowsFor_append (a b : List ApprovalRow) (lid : String) :
    app.rowsFor (a ++ b) lid = app.rowsFor a lid ++ app.rowsFor b lid := by
  simp [app.rowsFor, List.filter_append]

/-- `rowsFor` commutes with a map that preserves `line_id`. -/
theorem rowsFor_map_pres (aps : List ApprovalRow) (f : ApprovalRow → ApprovalRow)
    (hf : ∀ r, (f r).line_id = r.line_id) (lid : String) :
    app.rowsFor (aps.map f) lid = (app.rowsFor aps lid).map f := by
  induction aps with
  | nil => rfl
  | cons a t ih =>
      simp only [List.map_cons, app.rowsFor, List.filter_cons] at ih ⊢
      rw [hf a]
      by_cases h : (a.line_id == lid) = true <;> simp [h, ih]

/-- Updating only the matching rows is the identity when no row matches. -/
theorem map_id_of_no_match (aps : List ApprovalRow) (lid : String)
    (f : ApprovalRow → ApprovalRow)
    (h : aps.any (fun r => r.line_id == lid) = false) :
    (aps.map fun r => if r.line_id == lid then f r else r) = aps := by
  induction aps with
  | nil => rfl
  | cons a t ih =>
      simp only [List.any_cons, Bool.or_eq_false_iff] at h
      simp only [List.map_cons, ih h.2]
      rw [if_neg (by simp [h.1])]

/-- The conditional update inside the MERGE model also preserves `line_id`. -/
theorem cond_update_pres_line_id (lid : String) (f : ApprovalRow → ApprovalRow)
    (hf : ∀ r, (f r).line_id = r.line_id) :
    ∀ r : ApprovalRow, ((if r.line_id == lid then f r else r)).line_id = r.line_id := by
  intro r
  by_cases h : (r.line_id == lid) = true <;> simp [h, hf r]

/-- The merged key's rows after an upsert: the updated originals when the key
was present, the single fresh row when it was not. -/
theorem rowsFor_upsert_self (aps : List ApprovalRow) (lid : String)
    (f : ApprovalRow → ApprovalRow) (new : ApprovalRow)
    (hf : ∀ r, (f r).line_id = r.line_id) (hnew : new.line_id = lid) :
    app.rowsFor (app.upsert aps lid f new) lid =
      if aps.any (fun r => r.line_id == lid) then
        (app.rowsFor aps lid).map (fun r => if r.line_id == lid then f r else r)
      else [new] := by
  unfold app.upsert
  by_cases h : aps.any (fun r => r.line_id == lid) = true
  · rw [if_pos h, if_pos h, rowsFor_map_pres _ _ (cond_update_pres_line_id lid f hf)]
  · rw [if_neg h, if_neg h, rowsFor_append]
    have hnil : app.rowsFor aps lid = [] := by
      rw [app.rowsFor, List.filter_eq_nil_iff]
      intro r hr
      simp only [List.any_eq_true, not_exists, not_and] at h
      simp [h r hr]
    rw [hnil]
    simp [app.rowsFor, hnew]

/-- Rows of every other key are untouched by an upsert. -/
theorem rowsFor_upsert_other (aps : List ApprovalRow) (lid : String)
    (f : ApprovalRow → ApprovalRow) (new : ApprovalRow) (lid2 : String)
    (hf : ∀ r, (f r).line_id = r.line_id) (hnew : new.line_id = lid)
    (hne : lid2 ≠ lid) :
    app.rowsFor (app.upsert aps lid f new) lid2 = app.rowsFor aps lid2 := by
  unfold app.upsert
  by_cases h : aps.any (fun r => r.line_id == lid) = true
  · rw [if_pos h, rowsFor_map_pres _ _ (cond_update_pres_line_id lid f hf)]
    have : ∀ r ∈ app.rowsFor aps lid2,
        (if r.line_id == lid then f r else r) = r := by
      intro r hr
      have hid : r.line_id = lid2 := by
        simpa using (List.mem_filter.mp hr).2
      rw [if_neg]
      simp [hid, hne]
    calc (app.rowsFor aps lid2).map (fun r => if r.line_id == lid then f r else r)
        = (app.rowsFor aps lid2).map id := List.map_congr_left this
      _ = app.rowsFor aps lid2 := List.map_id _
  · rw [if_neg h, rowsFor_append]
    have : app.rowsFor [new] lid2 = [] := by
      simp [app.rowsFor, hnew, Ne.symm hne]
    rw [this, List.append_nil]

/-- An upsert on a key present in the ledger finds at least one row. -/
theorem one_le_rowsFor_of_any (aps : List ApprovalRow) (lid : String)
    (h : aps.any (fun r => r.line_id == lid) = true) :
    1 ≤ (app.rowsFor aps lid).length := by
  obtain ⟨r, hr, hp⟩ := List.any_eq_true.mp h
  have : r ∈ app.rowsFor aps lid := List.mem_filter.mpr ⟨hr, hp⟩
  exact List.length_pos.mpr (List.ne_nil_of_mem this)

/-- After an upsert whose key had at most one row, the key has exactly one. -/
theorem length_rowsFor_upsert_self (aps : List ApprovalRow) (lid : String)
    (f : ApprovalRow → ApprovalRow) (new : ApprovalRow)
    (hf : ∀ r, (f r).line_id = r.line_id) (hnew : new.line_id = lid)
    (h : (app.rowsFor aps lid).length ≤ 1) :
    (app.rowsFor (app.upsert aps lid f new) lid).length = 1 := by
  rw [rowsFor_upsert_self aps lid f new hf hnew]
  by_cases hany : aps.any (fun r => r.line_id == lid) = true
  · rw [if_pos hany, List.length_map]
    exact Nat.le_antisymm h (one_le_rowsFor_of_any aps lid hany)
  · rw [if_neg hany]
    rfl

/-- Upserting twice with the same idempotent update and the same fresh row is
the same as upserting once. -/
theorem upsert_idem (aps : List ApprovalRow) (lid : String)
    (f : ApprovalRow → ApprovalRow) (new : ApprovalRow)
    (hf : ∀ r, (f r).line_id = r.line_id) (hnew : new.line_id = lid)
    (hff : ∀ r, f (f r) = f r) (hfnew : f new = new) :
    app.upsert (app.upsert aps lid f new) lid f new = app.upsert aps lid f new := by
  have hg : ∀ r : ApprovalRow,
      (if (if r.line_id == lid then f r else r).line_id == lid then
        f (if r.line_id == lid then f r else r)
       else (if r.line_id == lid then f r else r)) =
      (if r.line_id == lid then f r else r) := by
    intro r
    by_cases h : (r.line_id == lid) = true
    · have : ((f r).line_id == lid) = true := by rw [hf r]; exact h
      simp [h, this, hff r]
    · simp [h]
  unfold app.upsert
  by_cases h : aps.any (fun r => r.line_id == lid) = true
  · rw [if_pos h]
    have hany2 : (aps.map fun r => if r.line_id == lid then f r else r).any
        (fun r => r.line_id == lid) = true := by
      obtain ⟨r, hr, hp⟩ := List.any_eq_true.mp h
      refine List.any_eq_true.mpr ⟨_, List.mem_map_of_mem _ hr, ?_⟩
      rw [cond_update_pres_line_id lid f hf r]
      exact hp
    rw [if_pos hany2, List.map_map]
    exact List.map_congr_left (fun r _ => hg r)
  · rw [if_neg h]
    have hany2 : (aps ++ [new]).any (fun r => r.line_id == lid) = true := by
      simp [hnew]
    rw [if_pos hany2, List.map_append,
      map_id_of_no_match aps lid f (Bool.not_eq_true _ ▸ eq_false_of_ne_true h)]
    simp [hnew, hfnew]

/-- After `merge_approve` on a key with at most one row, the key holds exactly
one row and every row it holds is APPROVED. -/
theorem merge_approve_state (aps : List ApprovalRow) (lid doc : String)
    (h : (app.rowsFor aps lid).length ≤ 1) :
    (app.rowsFor (app.merge_approve aps lid doc) lid).length = 1 ∧
    ∀ r ∈ app.rowsFor (app.merge_approve aps lid doc) lid,
      r.decision = "APPROVED" := by
  unfold app.merge_approve
  constructor
  · exact length_rowsFor_upsert_self aps lid app.approveUpdate
      (app.approveNew lid doc) (fun r => rfl) rfl h
  · intro r hr
    rw [rowsFor_upsert_self aps lid app.approveUpdate
      (app.approveNew lid doc) (fun r => rfl) rfl] at hr
    by_cases hany : aps.any (fun r => r.line_id == lid) = true
    · rw [if_pos hany] at hr
      obtain ⟨x, hx, rfl⟩ := List.mem_map.mp hr
      have hxid : (x.line_id == lid) = true := (List.mem_filter.mp hx).2
      simp [hxid, app.approveUpdate]
    · rw [if_neg hany] at hr
      simp only [List.mem_singleton] at hr
      subst hr
      rfl

/-- A `merge_approve` on any key keeps exactly-one-APPROVED state of a key. -/
theorem merge_approve_pres (aps : List ApprovalRow) (lid doc l2 : String)
    (h : (app.rowsFor aps lid).length = 1 ∧
      ∀ r ∈ app.rowsFor aps lid, r.decision = "APPROVED") :
    (app.rowsFor (app.merge_approve aps l2 doc) lid).length = 1 ∧
    ∀ r ∈ app.rowsFor (app.merge_approve aps l2 doc) lid,
      r.decision = "APPROVED" := by
  by_cases hne : lid = l2
  · subst hne
    exact merge_approve_state aps lid doc (le_of_eq h.1)
  · unfold app.merge_approve
    rw [rowsFor_upsert_other aps l2 app.approveUpdate (app.approveNew l2 doc)
      lid (fun r => rfl) rfl hne]
    exact h

/-- `merge_approve` keeps every key at no more than one row. -/
theorem merge_approve_le_one (aps : List ApprovalRow) (lid doc : String)
    (h : app.UniqueByLine aps) :
    app.UniqueByLine (app.merge_approve aps lid doc) := by
  intro lid2
  unfold app.merge_approve
  by_cases hne : lid2 = lid
  · subst hne
    exact le_of_eq (length_rowsFor_upsert_self aps lid2 app.approveUpdate
      (app.approveNew lid2 doc) (fun r => rfl) rfl (h lid2))
  · rw [rowsFor_upsert_other aps lid app.approveUpdate (app.approveNew lid doc)
      lid2 (fun r => rfl) rfl hne]
    exact h lid2

/-- The fold of `merge_approve` preserves exactly-one-APPROVED state. -/
theorem approve_all_pres (ls : List String) (doc : String) :
    ∀ aps lid,
      ((app.rowsFor aps lid).length = 1 ∧
        ∀ r ∈ app.rowsFor aps lid, r.decision = "APPROVED") →
      ((app.rowsFor (app.approve_all aps ls doc) lid).length = 1 ∧
        ∀ r ∈ app.rowsFor (app.approve_all aps ls doc) lid,
          r.decision = "APPROVED") := by
  induction ls with
  | nil => intro aps lid h; exact h
  | cons l t ih =>
      intro aps lid h
      exact ih (app.merge_approve aps l doc) lid (merge_approve_pres aps lid doc l h)

/-- After the bulk approve of a list of line ids over a unique ledger, every
listed line id holds exactly one APPROVED row. -/
theorem approve_all_state (ls : List String) (doc : String) :
    ∀ aps, app.UniqueByLine aps → ∀ lid ∈ ls,
      (app.rowsFor (app.approve_all aps ls doc) lid).length = 1 ∧
      ∀ r ∈ app.rowsFor (app.approve_all aps ls doc) lid,
        r.decision = "APPROVED" := by
  induction ls with
  | nil => intro aps _ lid hmem; cases hmem
  | cons l t ih =>
      intro aps h lid hmem
      rcases List.mem_cons.mp hmem with hl | hl
      · subst hl
        exact approve_all_pres t doc (app.merge_approve aps lid doc) lid
          (merge_approve_state aps lid doc (h lid))
      · exact ih (app.merge_approve aps l doc) (merge_approve_le_one aps l doc h)
          lid hl

/-- C8: over any ledger state with at most one decision row per line, the
per-line Submit MERGE keeps that invariant, leaves its key with exactly one
row, and is idempotent (submitting the same decision twice stores exactly
what submitting it once does); and the bulk Approve All leaves every listed
line with exactly one APPROVED row. -/
theorem spec_C8 (aps : List ApprovalRow) (h : app.UniqueByLine aps) :
    (∀ (lid doc d : String) (ch : Option ℚ) (cd cp rs : Option String),
        app.UniqueByLine (app.merge_submit aps lid doc d ch cd cp rs) ∧
        (app.rowsFor (app.merge_submit aps lid doc d ch cd cp rs) lid).length = 1 ∧
        app.merge_submit (app.merge_submit aps lid doc d ch cd cp rs)
            lid doc d ch cd cp rs
          = app.merge_submit aps lid doc d ch cd cp rs) ∧
    (∀ (lids : List String) (doc : String), ∀ lid ∈ lids,
        (app.rowsFor (app.approve_all aps lids doc) lid).length = 1 ∧
        ∀ r ∈ app.rowsFor (app.approve_all aps lids doc) lid,
          r.decision = "APPROVED") := by
  constructor
  · intro lid doc d ch cd cp rs
    unfold app.merge_submit
    refine ⟨?_, ?_, ?_⟩
    · intro lid2
      by_cases hne : lid2 = lid
      · subst hne
        exact le_of_eq (length_rowsFor_upsert_self aps lid2
          (app.submitUpdate d ch cd cp rs) (app.submitNew lid2 doc d ch cd cp rs)
          (fun r => rfl) rfl (h lid2))
      · rw [rowsFor_upsert_other aps lid (app.submitUpdate d ch cd cp rs)
          (app.submitNew lid doc d ch cd cp rs) lid2 (fun r => rfl) rfl hne]
        exact h lid2
    · exact length_rowsFor_upsert_self aps lid (app.submitUpdate d ch cd cp rs)
        (app.submitNew lid doc d ch cd cp rs) (fun r => rfl) rfl (h lid)
    · exact upsert_idem aps lid (app.submitUpdate d ch cd cp rs)
        (app.submitNew lid doc d ch cd cp rs) (fun r => rfl) rfl
        (fun r => rfl) rfl
  · intro lids doc lid hmem
    exact approve_all_state lids doc aps h lid hmem

/-- C8, witness: starting from the empty ledger, bulk-approving lines `L1`
and `L2` of document `D1` leaves `L1` with exactly one stored row. -/
theorem spec_C8_witness :
    (app.rowsFor (app.approve_all [] ["L1", "L2"] "D1") "L1").length = 1 :=
  ((spec_C8 [] (fun lid => by simp [app.rowsFor])).2 ["L1", "L2"] "D1" "L1"
    (by simp)).1

/-! ## Claim C9 -/

/-- C9, counterexample.  `crew.run_validation` hands its task to the external
generative model behind `crew.kickoff()` and returns that model's answer:
with the explicit inputs (extraction result and document id) held fixed, two
ambient model states produce two different outputs, so the component is not a
pure function of its explicit inputs. -/
theorem spec_C9_counterexample :
    crew.run_validation { complete := fun _ => "PASS" } "lines" "D1"
      ≠ crew.run_validation { complete := fun _ => "FAIL" } "lines" "D1" := by
  decide

/-- C9, amended: the script-level rule engine is deterministic over its
explicit inputs — `run_line_validation` and `run_document_validation` give
identical outputs whatever connection object they receive — but the crew.py
validation and reconciliation components return the ambient external model's
answer, on which their output genuinely depends. -/
theorem spec_C9_amended :
    (∀ (Conn Conn2 : Type) (c : Conn) (c2 : Conn2) (doc_id : String)
        (line : Line) (line_id : String),
        run_line_validation c doc_id line line_id
          = run_line_validation c2 doc_id line line_id) ∧
    (∀ (Conn Conn2 : Type) (c : Conn) (c2 : Conn2) (doc_id : String)
        (lines : List Line),
        run_document_validation c doc_id lines
          = run_document_validation c2 doc_id lines) ∧
    crew.run_validation { complete := fun _ => "a" } "x" "D"
      ≠ crew.run_validation { complete := fun _ => "b" } "x" "D" ∧
    crew.run_reconciliation { complete := fun _ => "a" } "ts" "s" "m" 150 1
      ≠ crew.run_reconciliation { complete := fun _ => "b" } "ts" "s" "m" 150 1 := by
  refine ⟨fun _ _ _ _ _ _ _ => rfl, fun _ _ _ _ _ _ => rfl, by decide, by decide⟩

/-! ## Claim C10 -/

/-- Every row produced from the grid carries the saved document id and a
strictly positive hours value. -/
theorem mem_gridInserts (doc worker : String) (dates : List String)
    (grid : List app.GridRow) (r : app.GtRow)
    (hr : r ∈ app.gridInserts doc worker dates grid) :
    r.doc_id = doc ∧ 0 < r.hours := by
  induction grid with
  | nil => cases hr
  | cons g t ih =>
      rcases List.mem_append.mp hr with h | h
      · unfold app.gridRowInserts at h
        split at h
        · cases h
        · split at h
          · cases h
          · obtain ⟨dc, hdc, hsome⟩ := List.mem_filterMap.mp h
            split at hsome
            next hpos => cases hsome; exact ⟨rfl, hpos⟩
            next => cases hsome
      · exact ih h

/-- C10: saving a ground-truth grid deletes the document's prior rows and
stores exactly the positive cells — every stored row of the document has
`hours > 0`, an all-nonpositive grid leaves the document with no rows at all,
and rows of other documents are untouched. -/
theorem spec_C10 (db : List app.GtRow) (doc worker : String)
    (dates : List String) (grid : List app.GridRow) :
    (∀ r ∈ app.save_ground_truth db doc worker dates grid,
        r.doc_id = doc → 0 < r.hours) ∧
    ((∀ row ∈ grid, ∀ q ∈ row.cells, ¬ 0 < q) →
        (app.save_ground_truth db doc worker dates grid).filter
          (fun r => r.doc_id == doc) = []) ∧
    (∀ r ∈ db, r.doc_id ≠ doc →
        r ∈ app.save_ground_truth db doc worker dates grid) := by
  refine ⟨?_, ?_, ?_⟩
  · intro r hr hdoc
    rcases List.mem_append.mp hr with h | h
    · have := (List.mem_filter.mp h).2
      simp [hdoc] at this
    · exact (mem_gridInserts doc worker dates grid r h).2
  · intro hz
    have hins : app.gridInserts doc worker dates grid = [] := by
      induction grid with
      | nil => rfl
      | cons g t ih =>
          have ht : app.gridInserts doc worker dates t = [] := by
            apply ih
            intro row hrow q hq
            exact hz row (List.mem_cons_of_mem g hrow) q hq
          have hg : app.gridRowInserts doc worker dates g = [] := by
            unfold app.gridRowInserts
            split
            · rfl
            · split
              · rfl
              · rw [List.filterMap_eq_nil_iff]
                intro dc hdc
                rw [if_neg (hz g (List.mem_cons_self g t) dc.2
                  (List.of_mem_zip hdc).2)]
          unfold app.gridInserts
          rw [hg, ht]
          rfl
    unfold app.save_ground_truth
    rw [hins, List.append_nil, List.filter_filter, List.filter_eq_nil_iff]
    intro r hr
    simp
  · intro r hr hne
    exact List.mem_append_left _
      (List.mem_filter.mpr ⟨hr, by simp [hne]⟩)

unseal Rat.add Rat.mul Rat.inv in
/-- C10, witness: saving an all-zero grid over a state holding one prior row
for `D1` leaves `D1` with no ground-truth rows. -/
theorem spec_C10_witness :
    (app.save_ground_truth [gtOld] "D1" "W" ["2024-01-06", "2024-01-07"]
        [gridZeroRow]).filter (fun r => r.doc_id == "D1") = [] :=
  (spec_C10 [gtOld] "D1" "W" ["2024-01-06", "2024-01-07"] [gridZeroRow]).2.1
    (by decide)
